import Mathlib

/-!
Verification of the rate-limiting engine of `strapi-plugin-rate-limit`.

The definitions below are a shallow embedding of the TypeScript sources:
JavaScript strings are embedded as Lean `String`, with the JavaScript
string operations (`startsWith`, `endsWith`, `slice`, `includes`) defined
on the underlying character list (JavaScript strings are sequences of
code units, so the list embedding is the faithful one).  Stateful code
(the warning-suppression map, the event buffer, the per-request
middleware) is embedded as explicit state passing.
-/

namespace StrapiRateLimit

/-! ## JavaScript string primitives -/

/-- JavaScript `s.startsWith(p)`. -/
def jsStartsWith (s p : String) : Bool :=
  p.data.isPrefixOf s.data

/-- JavaScript `s.endsWith(p)`. -/
def jsEndsWith (s p : String) : Bool :=
  p.data.isSuffixOf s.data

/-- JavaScript `s.slice(0, -1)`: drop the last character. -/
def jsDropLastChar (s : String) : String :=
  ⟨s.data.dropLast⟩

/-- JavaScript `s.slice(n)` for `n ≥ 0`: drop the first `n` characters. -/
def jsSliceFrom (s : String) (n : ℕ) : String :=
  ⟨s.data.drop n⟩

/-! ## Path normalization

From `server/src/middlewares/global-rate-limit.ts` (and identically
`rate-limit.ts`):

`ctx.path.endsWith('/') && ctx.path.length > 1 ? ctx.path.slice(0, -1) : ctx.path`
-/

def normalizePath (p : String) : String :=
  if jsEndsWith p "/" = true ∧ 1 < p.length then jsDropLastChar p else p

/-! ## Allowlist matching

`isAllowlisted` from `server/src/services/service.ts`: each branch is a
plain `Array.prototype.includes` membership test on the raw key suffix.
-/

structure Allowlist where
  ips : List String
  tokens : List String
  users : List String
deriving DecidableEq, Repr

def isAllowlisted (key : String) (al : Allowlist) : Bool :=
  if jsStartsWith key "ip:" then al.ips.contains (jsSliceFrom key 3)
  else if jsStartsWith key "token:" then al.tokens.contains (jsSliceFrom key 6)
  else if jsStartsWith key "user:" then al.users.contains (jsSliceFrom key 5)
  else false

/-! ### The spec's IP allowlist semantics

The specification (§4.4) states that for `ip:` keys the allowlist check
normalizes exact entries and performs an address-in-subnet test for CIDR
entries (as the helper `isIpInAllowlist` in `server/src/utils/ip-match.ts`
does).  The following definitions follow the spec's words for the IPv4
address family and are used to compare that claimed behaviour with the
behaviour of `isAllowlisted` above.
-/

/-- Value of a non-empty all-digit character list, in decimal. -/
def digitsVal (cs : List Char) : Option ℕ :=
  if cs ≠ [] ∧ cs.all Char.isDigit then
    some (cs.foldl (fun n c => n * 10 + (c.toNat - 48)) 0)
  else none

/-- One dotted-quad component: digits with value at most 255. -/
def octetVal (cs : List Char) : Option ℕ :=
  match digitsVal cs with
  | some v => if v ≤ 255 then some v else none
  | none => none

/-- Parse an IPv4 dotted-quad address to its 32-bit numeric value. -/
def parseIPv4 (s : String) : Option ℕ :=
  match (s.data.splitOn '.').map octetVal with
  | [some a, some b, some c, some d] => some (((a * 256 + b) * 256 + c) * 256 + d)
  | _ => none

/-- Claimed semantics of one allowlist entry against an address
(spec §4.4): a CIDR entry matches by an address-in-subnet test, an exact
entry matches after normalization (numeric comparison of the parsed
addresses); malformed entries never match. -/
def claimedIpEntryMatch (addr entry : String) : Bool :=
  match entry.data.splitOn '/' with
  | [base, lenCs] =>
    match parseIPv4 addr, parseIPv4 ⟨base⟩, digitsVal lenCs with
    | some a, some b, some k =>
      if k ≤ 32 then a / 2 ^ (32 - k) = b / 2 ^ (32 - k) else false
    | _, _, _ => false
  | [_] =>
    match parseIPv4 addr, parseIPv4 entry with
    | some a, some b => a = b
    | _, _ => false
  | _ => false

/-- Claimed semantics of the `ip:` allowlist check: the address matches
some allowlist IP entry. -/
def claimedIpAllowed (addr : String) (entries : List String) : Bool :=
  entries.any (claimedIpEntryMatch addr)

/-! ## Quota consumption (`consume` of the service)

`rate-limiter-flexible`'s `limiter.consume` either resolves with a
`RateLimiterRes`, rejects with a `RateLimiterRes` (normal quota-exceeded
rejection), or throws some other error (storage failure).  `consume` in
`server/src/services/service.ts` maps these three outcomes to a
`ConsumeResult`; a storage error is additionally logged. -/

structure RateLimiterRes where
  remainingPoints : ℕ
  msBeforeNext : ℕ
  consumedPoints : ℕ
deriving DecidableEq, Repr

inductive BackendOutcome where
  | ok (r : RateLimiterRes)
  | reject (r : RateLimiterRes)
  | err (msg : String)
deriving DecidableEq, Repr

structure ConsumeResult where
  allowed : Bool
  res : Option RateLimiterRes
  limit : ℕ
deriving DecidableEq, Repr

/-- `consume` of the service; the second component records whether a
storage error was logged. -/
def consume (b : BackendOutcome) (limit : ℕ) : ConsumeResult × Bool :=
  match b with
  | .ok r => (⟨true, some r, limit⟩, false)
  | .reject r => (⟨false, some r, limit⟩, false)
  | .err _ => (⟨true, none, 0⟩, true)

/-! ## Rule resolution (`resolve` of the service)

A compiled rule carries its picomatch matcher (embedded as an abstract
`String → Bool` predicate, glob syntax being out of scope), its limit,
its interval and the identity of its limiter. -/

structure RuleLimiter where
  matcher : String → Bool
  limiterId : ℕ
  limit : ℕ
  intervalMs : ℕ

structure Resolved where
  limiterId : ℕ
  limit : ℕ
  intervalMs : ℕ
deriving DecidableEq, Repr

/-- `resolve` of the service: first matching rule wins, else the default. -/
def resolve (rules : List RuleLimiter) (dflt : Resolved) (path : String) : Resolved :=
  match rules with
  | [] => dflt
  | r :: rest =>
    if r.matcher path then ⟨r.limiterId, r.limit, r.intervalMs⟩
    else resolve rest dflt path

/-! ## Warning deduplication (`shouldWarn` of the service)

The `warnedKeys` JavaScript `Map` is embedded as an insertion-ordered
association list with unique keys: `Map.get` is `lookupEntry`,
`Map.delete` is `eraseEntry`, `Map.set` of an absent key appends, and
`Map.keys().next().value` is the head. -/

abbrev WarnMap := List (String × ℕ)

def lookupEntry (key : String) : WarnMap → Option ℕ
  | [] => none
  | (k, e) :: rest => if k = key then some e else lookupEntry key rest

def eraseEntry (key : String) : WarnMap → WarnMap
  | [] => []
  | (k, e) :: rest => if k = key then rest else (k, e) :: eraseEntry key rest

def MAX_WARNED_KEYS : ℕ := 10000

/-- Second half of `shouldWarn`: the threshold comparison and the
bounded insertion (evicting the oldest entry when the cap is reached). -/
def warnInsert (thresh : ℚ) (now : ℕ) (key : String)
    (consumedPoints limit windowDurationMs : ℕ) (s : WarnMap) : Bool × WarnMap :=
  if thresh ≤ (consumedPoints : ℚ) / (limit : ℚ) then
    let s' := if MAX_WARNED_KEYS ≤ s.length then s.tail else s
    (true, s' ++ [(key, now + windowDurationMs)])
  else (false, s)

/-- `shouldWarn` of the service (with the configured
`thresholdWarning` ratio and the current clock passed explicitly); returns
the decision together with the updated suppression map. -/
def shouldWarn (thresh : ℚ) (now : ℕ) (key : String)
    (consumedPoints limit windowDurationMs : ℕ) (s : WarnMap) : Bool × WarnMap :=
  if thresh = 0 then (false, s)
  else
    match lookupEntry key s with
    | some expiry =>
      if now < expiry then (false, s)
      else warnInsert thresh now key consumedPoints limit windowDurationMs (eraseEntry key s)
    | none => warnInsert thresh now key consumedPoints limit windowDurationMs s

/-- The key has a suppression entry that has not yet expired. -/
def hasLiveEntry (now : ℕ) (key : String) (s : WarnMap) : Bool :=
  match lookupEntry key s with
  | some expiry => decide (now < expiry)
  | none => false

/-- The state of the suppression map after the lazy removal of a stale
entry for `key` (identity when the entry is absent or still live). -/
def cleanupEntry (now : ℕ) (key : String) (s : WarnMap) : WarnMap :=
  match lookupEntry key s with
  | some expiry => if now < expiry then s else eraseEntry key s
  | none => s

/-! ## Event recorder

Modelled from the spec: the event recorder of the current
`server/src/services/service.ts` is not part of the provided sources
(only its interface in `server/src/types.ts`, its unit tests and its
callers are), so `recordEvent` / `getRecentEvents` are modelled from
spec §4.6: a fixed-capacity (100) circular buffer, a lifetime `total`
including evicted events, ids assigned from a monotonically increasing
counter starting at 1, and a record-time timestamp. -/

structure REvent where
  id : ℕ
  timestamp : ℕ
  clientKey : String
deriving DecidableEq, Repr

def EVENT_CAPACITY : ℕ := 100

structure EventBuffer where
  buf : List REvent
  total : ℕ
  nextId : ℕ
deriving DecidableEq, Repr

def emptyEvents : EventBuffer := ⟨[], 0, 1⟩

/-- Modelled from the spec: `record` assigns the next id and the
record-time timestamp, appends, and evicts the oldest event when the
buffer is at capacity. -/
def recordEvent (now : ℕ) (clientKey : String) (s : EventBuffer) : EventBuffer :=
  let ev : REvent := ⟨s.nextId, now, clientKey⟩
  let buf' := if EVENT_CAPACITY ≤ s.buf.length then s.buf.tail ++ [ev] else s.buf ++ [ev]
  ⟨buf', s.total + 1, s.nextId + 1⟩

structure EventsView where
  events : List REvent
  total : ℕ
  capacity : ℕ
deriving DecidableEq, Repr

/-- Modelled from the spec: `query` returns the buffered events
newest-first together with the lifetime total and the capacity. -/
def getRecentEvents (s : EventBuffer) : EventsView :=
  ⟨s.buf.reverse, s.total, EVENT_CAPACITY⟩

/-- Recording `n` events in sequence (event `i` has clientKey `ip:i` and
timestamp `i`), as in the unit test of the event buffer. -/
def recordSeq : ℕ → EventBuffer
  | 0 => emptyEvents
  | n + 1 => recordEvent n ("ip:" ++ toString n) (recordSeq n)

/-- The event produced by the `i`-th (0-based) recording of `recordSeq`. -/
def seqEvent (i : ℕ) : REvent := ⟨i + 1, i, "ip:" ++ toString i⟩

/-! ## Identity resolution

`resolveClientKey` from `server/src/utils/resolve-client-key.ts` and
`resolveClientIp` from `server/src/utils/resolve-client-ip.ts`.
JavaScript id values (numbers or strings) are embedded as `JsVal`; the
truthiness tests `auth?.credentials?.id`, `ctx.state.user?.id` and
`if (cfIp)` use JavaScript truthiness. -/

inductive JsVal where
  | num (n : ℤ)
  | str (s : String)
deriving DecidableEq, Repr

def JsVal.truthy : JsVal → Bool
  | .num n => n ≠ 0
  | .str s => s ≠ ""

/-- JavaScript `String(v)` on an id value. -/
def JsVal.jsString : JsVal → String
  | .num n => toString n
  | .str s => s

structure AuthState where
  strategyName : String
  credentialsId : Option JsVal
deriving DecidableEq, Repr

structure KoaCtx where
  auth : Option AuthState
  userId : Option JsVal
  requestIp : String
  cfConnectingIp : String
deriving DecidableEq, Repr

/-- `resolveClientIp(ctx, cloudflare)`: the `CF-Connecting-IP` header is
used only when `cloudflare` is enabled and the header is truthy
(non-empty); otherwise the transport-layer peer address `ctx.request.ip`. -/
def resolveClientIp (ctx : KoaCtx) (cloudflare : Bool) : String :=
  if cloudflare then
    if ctx.cfConnectingIp ≠ "" then ctx.cfConnectingIp else ctx.requestIp
  else ctx.requestIp

/-- The guard `auth?.strategy?.name === 'api-token' && auth?.credentials?.id`:
the credentials id when the request carries an API-token principal with a
truthy id. -/
def apiTokenId (ctx : KoaCtx) : Option JsVal :=
  match ctx.auth with
  | some a =>
    if a.strategyName = "api-token" then
      match a.credentialsId with
      | some v => if v.truthy then some v else none
      | none => none
    else none
  | none => none

/-- The guard `auth?.strategy?.name === 'users-permissions' && ctx.state.user?.id`:
the user id when the request carries a users-permissions principal with a
truthy user id. -/
def upUserId (ctx : KoaCtx) : Option JsVal :=
  match ctx.auth with
  | some a =>
    if a.strategyName = "users-permissions" then
      match ctx.userId with
      | some v => if v.truthy then some v else none
      | none => none
    else none
  | none => none

/-- `resolveClientKey(ctx, cloudflare)`. -/
def resolveClientKey (ctx : KoaCtx) (cloudflare : Bool) : String :=
  match apiTokenId ctx with
  | some v => "token:" ++ v.jsString
  | none =>
    match upUserId ctx with
    | some v => "user:" ++ v.jsString
    | none => "ip:" ++ resolveClientIp ctx cloudflare

/-! ## The global middleware

`globalRateLimit` from `server/src/middlewares/global-rate-limit.ts`,
embedded as a function from a per-request environment to the final
request context.  As in the repository's own middleware unit tests, the
service collaborators are abstracted per request: each call that can
throw is an `Except String` value (`.error` being a thrown exception),
and the counter backend's behaviour for this request is a
`BackendOutcome`.  The context records the response status and body, the
headers set, whether `next()` was called, whether an error was logged,
the recorded events, and the keys consumed. -/

structure ErrorDetail where
  status : ℕ
  name : String
  message : String
  details : List (String × String)
deriving DecidableEq, Repr

structure ErrorBody where
  data : Option String
  error : ErrorDetail
deriving DecidableEq, Repr

/-- `TOO_MANY_REQUESTS_BODY` from `server/src/utils/constants.ts`. -/
def TOO_MANY_REQUESTS_BODY : ErrorBody :=
  ⟨none, ⟨429, "TooManyRequestsError", "Too many requests, please try again later.", []⟩⟩

structure EventPayload where
  type : String
  clientKey : String
  path : String
  source : String
  consumedPoints : ℕ
  limit : ℕ
  msBeforeNext : ℕ
deriving DecidableEq, Repr

structure MwEnv where
  path : String
  enabled : Bool
  isExcluded : Except String Bool
  allowIps : List String
  ip : String
  resolveR : Except String Resolved
  backend : BackendOutcome
  warn : Except String Bool
  recordOk : Except String Unit
  now : ℕ

structure MwCtx where
  status : ℕ := 200
  body : Option ErrorBody := none
  headers : List (String × String) := []
  nextCalled : Bool := false
  loggedError : Bool := false
  events : List EventPayload := []
  consumedKeys : List String := []
deriving Repr

def callNext (c : MwCtx) : MwCtx := { c with nextCalled := true }

/-- `Math.ceil((Date.now() + msBeforeNext) / 1000)` on naturals. -/
def ceilSec (nowPlusMs : ℕ) : ℕ := (nowPlusMs + 999) / 1000

/-- `Math.round(msBeforeNext / 1000) || 1` on naturals. -/
def retryAfterSec (msBeforeNext : ℕ) : ℕ :=
  let r := (msBeforeNext + 500) / 1000
  if r = 0 then 1 else r

/-- The `try` block of the middleware: returns the context reached so
far, paired with `some msg` when an exception escaped to the `catch`. -/
def mwTry (env : MwEnv) : Option String × MwCtx :=
  let c : MwCtx := {}
  let np := normalizePath env.path
  if ¬(jsStartsWith np "/api/" = true) ∧ np ≠ "/graphql" then (none, callNext c)
  else if env.enabled = false then (none, callNext c)
  else
    match env.isExcluded with
    | .error e => (some e, c)
    | .ok true => (none, callNext c)
    | .ok false =>
      if env.allowIps.contains env.ip then (none, callNext c)
      else
        match env.resolveR with
        | .error e => (some e, c)
        | .ok r =>
          let key := "ip:" ++ env.ip
          let (cr, logged) := consume env.backend r.limit
          let c := { c with consumedKeys := [key], loggedError := logged }
          match cr.res with
          | none => (none, callNext c)
          | some res =>
            if cr.allowed then
              let c := { c with headers := c.headers ++
                [("X-RateLimit-Limit", toString cr.limit),
                 ("X-RateLimit-Remaining", toString res.remainingPoints),
                 ("X-RateLimit-Reset", toString (ceilSec (env.now + res.msBeforeNext)))] }
              match env.warn with
              | .error e => (some e, c)
              | .ok w =>
                if w then
                  match env.recordOk with
                  | .error e => (some e, c)
                  | .ok _ =>
                    let c := { c with events := c.events ++
                      [⟨"warning", key, np, "global", res.consumedPoints, cr.limit, res.msBeforeNext⟩] }
                    (none, callNext c)
                else (none, callNext c)
            else
              let c := { c with status := 429, body := some TOO_MANY_REQUESTS_BODY }
              let c := { c with headers := c.headers ++
                [("Retry-After", toString (retryAfterSec res.msBeforeNext)),
                 ("X-RateLimit-Limit", toString cr.limit),
                 ("X-RateLimit-Remaining", "0"),
                 ("X-RateLimit-Reset", toString (ceilSec (env.now + res.msBeforeNext)))] }
              match env.recordOk with
              | .error e => (some e, c)
              | .ok _ =>
                (none, { c with events := c.events ++
                  [⟨"blocked", key, np, "global", res.consumedPoints, cr.limit, res.msBeforeNext⟩] })

/-- The full middleware: the `catch` block logs the error and calls
`next()`. -/
def globalRateLimit (env : MwEnv) : MwCtx :=
  match mwTry env with
  | (none, c) => c
  | (some _, c) => { callNext c with loggedError := true }

/-! ## Helper lemmas on the string primitives -/

theorem string_mk_data (s : String) : String.mk s.data = s := rfl

theorem data_concat_slash (p : String) : (p ++ "/").data = p.data ++ ['/'] := by
  rw [String.data_append]

theorem jsEndsWith_slash_iff (s : String) :
    jsEndsWith s "/" = true ↔ s.data.getLast? = some '/' := by
  unfold jsEndsWith
  rw [List.isSuffixOf_iff_suffix]
  have hd : "/".data = ['/'] := rfl
  rw [hd]
  constructor
  · rintro ⟨t, ht⟩
    rw [← ht]
    exact List.getLast?_concat _
  · intro h
    rcases s.data.eq_nil_or_concat with he | ⟨t, b, he⟩
    · rw [he] at h; simp at h
    · rw [List.concat_eq_append] at he
      rw [he] at h ⊢
      rw [List.getLast?_concat] at h
      obtain rfl : b = '/' := by injection h
      exact ⟨t, rfl⟩

theorem getLast?_eq_some_concat {l : List Char} {a : Char}
    (h : l.getLast? = some a) : ∃ t, l = t ++ [a] := by
  rcases l.eq_nil_or_concat with rfl | ⟨t, b, rfl⟩
  · simp at h
  · rw [List.concat_eq_append, List.getLast?_concat] at h
    rw [List.concat_eq_append]
    obtain rfl : b = a := by injection h
    exact ⟨t, rfl⟩

theorem jsEndsWith_dslash (p : String) (u : List Char)
    (hu : p.data = u ++ ['/', '/']) : jsEndsWith p "//" = true := by
  unfold jsEndsWith
  rw [List.isSuffixOf_iff_suffix]
  have hd : "//".data = ['/', '/'] := rfl
  rw [hd, hu]
  exact ⟨u, rfl⟩

theorem normalizePath_of_not_slash (p : String) (h : p.data.getLast? ≠ some '/') :
    normalizePath p = p := by
  unfold normalizePath
  rw [if_neg]
  rintro ⟨h1, -⟩
  exact h ((jsEndsWith_slash_iff p).mp h1)

theorem jsDropLastChar_concat_slash (p : String) : jsDropLastChar (p ++ "/") = p := by
  unfold jsDropLastChar
  rw [data_concat_slash, List.dropLast_concat]

theorem normalizePath_concat_slash (p : String) (h0 : 0 < p.length) :
    normalizePath (p ++ "/") = p := by
  unfold normalizePath
  rw [if_pos, jsDropLastChar_concat_slash]
  constructor
  · rw [jsEndsWith_slash_iff, data_concat_slash]
    exact List.getLast?_concat _
  · rw [String.length_append]
    have : "/".length = 1 := rfl
    omega

/-! ## Claim C8: path normalization -/

/-- Claim C8 (counterexample): normalization strips exactly one trailing
slash, so on `"/a//"` it is not idempotent, and `"/a/"` (length > 1) and
`"/a//"` do not normalize to the same value. -/
theorem C8_counterexample :
    normalizePath (normalizePath "/a//") ≠ normalizePath "/a//" ∧
    1 < "/a/".length ∧
    normalizePath ("/a/" ++ "/") ≠ normalizePath "/a/" := by decide

/-- Claim C8 (amended): for every path not ending in `/`, normalization
is the identity and appending a single trailing `/` normalizes back to
the path itself (so `/api/x` and `/api/x/` resolve to the same bucket);
normalization is idempotent on every path that does not end in `//`. -/
theorem C8_normalizePath_amended :
    (∀ p : String, p.data.getLast? ≠ some '/' →
      normalizePath p = p ∧ (1 < p.length → normalizePath (p ++ "/") = p)) ∧
    (∀ p : String, jsEndsWith p "//" = false →
      normalizePath (normalizePath p) = normalizePath p) ∧
    normalizePath "/api/x/" = normalizePath "/api/x" := by
  refine ⟨?_, ?_, by decide⟩
  · intro p h
    exact ⟨normalizePath_of_not_slash p h,
      fun hlen => normalizePath_concat_slash p (by omega)⟩
  · intro p h
    by_cases hl : p.data.getLast? = some '/'
    · obtain ⟨t, ht⟩ := getLast?_eq_some_concat hl
      by_cases hlen : 1 < p.length
      · have hnp : normalizePath p = ⟨t⟩ := by
          unfold normalizePath
          rw [if_pos ⟨(jsEndsWith_slash_iff p).mpr hl, hlen⟩]
          unfold jsDropLastChar
          rw [ht, List.dropLast_concat]
        rw [hnp]
        apply normalizePath_of_not_slash
        intro hlast
        have hlast' : t.getLast? = some '/' := hlast
        obtain ⟨u, hu⟩ := getLast?_eq_some_concat hlast'
        have hds : jsEndsWith p "//" = true :=
          jsEndsWith_dslash p u (by rw [ht, hu]; simp)
        rw [h] at hds
        simp at hds
      · have hnp : normalizePath p = p := by
          unfold normalizePath
          rw [if_neg]
          rintro ⟨-, h2⟩
          exact hlen h2
        rw [hnp, hnp]
    · have hnp := normalizePath_of_not_slash p hl
      rw [hnp, hnp]

/-- Claim C8 (witness): the amended statement at `"/api/x"` and `"/ab"`. -/
theorem C8_witness :
    normalizePath "/api/x" = "/api/x" ∧
    normalizePath ("/api/x" ++ "/") = "/api/x" ∧
    normalizePath (normalizePath "/ab") = normalizePath "/ab" :=
  ⟨(C8_normalizePath_amended.1 "/api/x" (by decide)).1,
   (C8_normalizePath_amended.1 "/api/x" (by decide)).2 (by decide),
   C8_normalizePath_amended.2.1 "/ab" (by decide)⟩

/-! ## Claim C4: allowlist matching for `ip:` keys -/

theorem jsStartsWith_append (p s : String) : jsStartsWith (p ++ s) p = true := by
  unfold jsStartsWith
  rw [List.isPrefixOf_iff_prefix, String.data_append]
  exact List.prefix_append _ _

theorem jsSliceFrom_append (p s : String) :
    jsSliceFrom (p ++ s) p.data.length = s := by
  unfold jsSliceFrom
  rw [String.data_append, List.drop_left]

/-- Claim C4 (counterexample): the address `10.0.0.5` lies in the subnet
of the CIDR allowlist entry `10.0.0.0/24` (so the claimed
address-in-subnet semantics match it), yet `isAllowlisted` returns
`false` for the key `ip:10.0.0.5`, because it tests plain string
membership of the raw suffix. -/
theorem C4_counterexample :
    isAllowlisted "ip:10.0.0.5" ⟨["10.0.0.0/24"], [], []⟩ = false ∧
    claimedIpAllowed "10.0.0.5" ["10.0.0.0/24"] = true := by decide

/-- Claim C4 (amended): for every key `ip:<addr>` the allowlist check
returns true iff the exact string `<addr>` is an entry of the `ips`
list (no normalization, no CIDR interpretation), and every key of
unrecognized shape returns false. -/
theorem C4_isAllowlisted_amended :
    (∀ (a : String) (al : Allowlist),
      isAllowlisted ("ip:" ++ a) al = al.ips.contains a) ∧
    (∀ (key : String) (al : Allowlist),
      jsStartsWith key "ip:" = false → jsStartsWith key "token:" = false →
      jsStartsWith key "user:" = false → isAllowlisted key al = false) := by
  constructor
  · intro a al
    have h3 : jsSliceFrom ("ip:" ++ a) 3 = a := jsSliceFrom_append "ip:" a
    unfold isAllowlisted
    rw [if_pos (jsStartsWith_append "ip:" a), h3]
  · intro key al h1 h2 h3
    unfold isAllowlisted
    rw [h1, h2, h3]
    simp

/-- Claim C4 (witness): the amended statement at concrete keys. -/
theorem C4_witness :
    isAllowlisted ("ip:" ++ "10.0.0.1") ⟨["10.0.0.1"], [], []⟩ = true ∧
    isAllowlisted "unknown:5" ⟨["10.0.0.1"], ["5"], ["5"]⟩ = false :=
  ⟨(C4_isAllowlisted_amended.1 "10.0.0.1" ⟨["10.0.0.1"], [], []⟩).trans (by decide),
   C4_isAllowlisted_amended.2 "unknown:5" ⟨["10.0.0.1"], ["5"], ["5"]⟩
     (by decide) (by decide) (by decide)⟩

/-! ## Claim C5: first-match rule resolution -/

/-- Claim C5: `resolve(path)` returns the limiter, limit and interval of
the first rule in declaration order whose pattern matches the path, and
the default quota when no rule matches. -/
theorem C5_resolve_first_match :
    (∀ (rules : List RuleLimiter) (dflt : Resolved) (path : String)
       (i : ℕ) (hi : i < rules.length),
       (rules.get ⟨i, hi⟩).matcher path = true →
       (∀ j (hj : j < rules.length), j < i → (rules.get ⟨j, hj⟩).matcher path = false) →
       resolve rules dflt path =
         ⟨(rules.get ⟨i, hi⟩).limiterId, (rules.get ⟨i, hi⟩).limit,
          (rules.get ⟨i, hi⟩).intervalMs⟩) ∧
    (∀ (rules : List RuleLimiter) (dflt : Resolved) (path : String),
       (∀ r ∈ rules, r.matcher path = false) →
       resolve rules dflt path = dflt) := by
  constructor
  · intro rules
    induction rules with
    | nil => intro dflt path i hi; exact absurd hi (by simp)
    | cons r rest ih =>
      intro dflt path i hi hm hprev
      cases i with
      | zero =>
        simp only [List.get] at hm ⊢
        unfold resolve
        rw [if_pos hm]
      | succ n =>
        have h0 : r.matcher path = false := hprev 0 (by simp) (by omega)
        have hn : n < rest.length := by simpa using hi
        have hm' : (rest.get ⟨n, hn⟩).matcher path = true := by
          simpa using hm
        have hprev' : ∀ j (hj : j < rest.length), j < n →
            (rest.get ⟨j, hj⟩).matcher path = false := by
          intro j hj hlt
          have := hprev (j + 1) (by simpa using hj) (by omega)
          simpa using this
        unfold resolve
        rw [if_neg (by simp [h0])]
        simpa using ih dflt path n hn hm' hprev'
  · intro rules dflt path hall
    induction rules with
    | nil => rfl
    | cons r rest ih =>
      unfold resolve
      rw [if_neg (by simp [hall r (by simp)])]
      exact ih (fun x hx => hall x (by simp [hx]))

/-- Claim C5 (witness): a two-rule list where the second rule is the
first match, and a no-match list falling back to the default. -/
theorem C5_witness :
    resolve [⟨(· == "/api/a"), 1, 5, 1000⟩, ⟨fun _ => true, 2, 7, 2000⟩]
        ⟨0, 100, 60000⟩ "/api/b" = ⟨2, 7, 2000⟩ ∧
    resolve [⟨(· == "/api/a"), 1, 5, 1000⟩] ⟨0, 100, 60000⟩ "/api/b" =
      ⟨0, 100, 60000⟩ := by
  constructor
  · have := C5_resolve_first_match.1
      [⟨(· == "/api/a"), 1, 5, 1000⟩, ⟨fun _ => true, 2, 7, 2000⟩]
      ⟨0, 100, 60000⟩ "/api/b" 1 (by simp) rfl ?_
    · exact this
    · intro j hj hlt
      have hj0 : j = 0 := by omega
      subst hj0
      rfl
  · exact C5_resolve_first_match.2 _ _ _ (by
      intro x hx
      simp at hx
      subst hx
      rfl)

/-! ## Lemmas on the warning-suppression map -/

theorem lookupEntry_eq_none_iff (key : String) (s : WarnMap) :
    lookupEntry key s = none ↔ key ∉ s.map Prod.fst := by
  induction s with
  | nil => simp [lookupEntry]
  | cons kv rest ih =>
    obtain ⟨k, e⟩ := kv
    by_cases hk : k = key
    · subst hk
      simp [lookupEntry]
    · simp [lookupEntry, hk, ih, Ne.symm hk]

theorem not_mem_eraseEntry (key : String) (s : WarnMap)
    (hnd : (s.map Prod.fst).Nodup) :
    key ∉ (eraseEntry key s).map Prod.fst := by
  induction s with
  | nil => simp [eraseEntry]
  | cons kv rest ih =>
    obtain ⟨k, e⟩ := kv
    simp only [List.map_cons, List.nodup_cons] at hnd
    by_cases hk : k = key
    · subst hk
      simpa [eraseEntry] using hnd.1
    · simp only [eraseEntry, if_neg hk, List.map_cons, List.mem_cons]
      rintro (h | h)
      · exact hk h.symm
      · exact ih hnd.2 h

theorem lookupEntry_append_self (key : String) (v : ℕ) (s : WarnMap)
    (h : key ∉ s.map Prod.fst) :
    lookupEntry key (s ++ [(key, v)]) = some v := by
  induction s with
  | nil => simp [lookupEntry]
  | cons kv rest ih =>
    obtain ⟨k, e⟩ := kv
    simp only [List.map_cons, List.mem_cons] at h
    push_neg at h
    have hk : ¬(k = key) := fun hk => h.1 hk.symm
    simp only [List.cons_append, lookupEntry, if_neg hk]
    exact ih h.2

theorem not_mem_map_tail (key : String) (s : WarnMap)
    (h : key ∉ s.map Prod.fst) :
    key ∉ s.tail.map Prod.fst := by
  cases s with
  | nil => simp
  | cons kv rest =>
    simp only [List.map_cons, List.mem_cons] at h
    push_neg at h
    simpa using h.2

theorem eraseEntry_length_le (key : String) (s : WarnMap) :
    (eraseEntry key s).length ≤ s.length := by
  induction s with
  | nil => simp [eraseEntry]
  | cons kv rest ih =>
    obtain ⟨k, e⟩ := kv
    by_cases hk : k = key
    · simp [eraseEntry, hk]
    · simp only [eraseEntry, if_neg hk, List.length_cons]
      omega

theorem shouldWarn_none (t : ℚ) (now : ℕ) (key : String)
    (consumedPoints limit windowDurationMs : ℕ) (s : WarnMap)
    (ht0 : ¬t = 0) (h : lookupEntry key s = none) :
    shouldWarn t now key consumedPoints limit windowDurationMs s =
      warnInsert t now key consumedPoints limit windowDurationMs s := by
  unfold shouldWarn
  rw [if_neg ht0, h]

theorem shouldWarn_live (t : ℚ) (now : ℕ) (key : String)
    (consumedPoints limit windowDurationMs : ℕ) (s : WarnMap) (expiry : ℕ)
    (ht0 : ¬t = 0) (h : lookupEntry key s = some expiry) (hlt : now < expiry) :
    shouldWarn t now key consumedPoints limit windowDurationMs s = (false, s) := by
  unfold shouldWarn
  rw [if_neg ht0, h]
  dsimp only
  rw [if_pos hlt]

theorem shouldWarn_expired (t : ℚ) (now : ℕ) (key : String)
    (consumedPoints limit windowDurationMs : ℕ) (s : WarnMap) (expiry : ℕ)
    (ht0 : ¬t = 0) (h : lookupEntry key s = some expiry) (hge : ¬now < expiry) :
    shouldWarn t now key consumedPoints limit windowDurationMs s =
      warnInsert t now key consumedPoints limit windowDurationMs (eraseEntry key s) := by
  unfold shouldWarn
  rw [if_neg ht0, h]
  dsimp only
  rw [if_neg hge]

theorem cleanupEntry_none (now : ℕ) (key : String) (s : WarnMap)
    (h : lookupEntry key s = none) : cleanupEntry now key s = s := by
  unfold cleanupEntry
  rw [h]

theorem cleanupEntry_expired (now : ℕ) (key : String) (s : WarnMap) (expiry : ℕ)
    (h : lookupEntry key s = some expiry) (hge : ¬now < expiry) :
    cleanupEntry now key s = eraseEntry key s := by
  unfold cleanupEntry
  rw [h]
  dsimp only
  rw [if_neg hge]

theorem hasLiveEntry_eq_false_of_none (now : ℕ) (key : String) (s : WarnMap)
    (h : lookupEntry key s = none) : hasLiveEntry now key s = false := by
  unfold hasLiveEntry
  rw [h]

theorem hasLiveEntry_eq_true_of_live (now : ℕ) (key : String) (s : WarnMap) (expiry : ℕ)
    (h : lookupEntry key s = some expiry) (hlt : now < expiry) :
    hasLiveEntry now key s = true := by
  unfold hasLiveEntry
  rw [h]
  dsimp only
  simpa using hlt

theorem hasLiveEntry_eq_false_of_expired (now : ℕ) (key : String) (s : WarnMap) (expiry : ℕ)
    (h : lookupEntry key s = some expiry) (hge : ¬now < expiry) :
    hasLiveEntry now key s = false := by
  unfold hasLiveEntry
  rw [h]
  dsimp only
  simpa using hge

/-- The two conclusions of the insertion phase of `shouldWarn`, for any
map within the cap. -/
theorem warnInsert_spec (t : ℚ) (now : ℕ) (key : String)
    (consumedPoints limit windowDurationMs : ℕ) (s1 : WarnMap)
    (h : s1.length ≤ MAX_WARNED_KEYS) :
    (warnInsert t now key consumedPoints limit windowDurationMs s1).2.length ≤ MAX_WARNED_KEYS ∧
    ((warnInsert t now key consumedPoints limit windowDurationMs s1).1 = true →
      MAX_WARNED_KEYS ≤ s1.length →
      (warnInsert t now key consumedPoints limit windowDurationMs s1).2 =
        s1.tail ++ [(key, now + windowDurationMs)]) := by
  unfold warnInsert
  by_cases hr : t ≤ (consumedPoints : ℚ) / (limit : ℚ)
  · rw [if_pos hr]
    by_cases hc : MAX_WARNED_KEYS ≤ s1.length
    · have hlen : s1.length = MAX_WARNED_KEYS := le_antisymm h hc
      have hpos : 0 < s1.length := by
        rw [hlen]; unfold MAX_WARNED_KEYS; omega
      constructor
      · simp only [if_pos hc, List.length_append, List.length_tail]
        simp only [List.length_singleton]
        omega
      · intro _ _
        simp only [if_pos hc]
    · constructor
      · simp only [if_neg hc, List.length_append, List.length_singleton]
        omega
      · intro _ hc'
        exact absurd hc' hc
  · rw [if_neg hr]
    exact ⟨h, by simp⟩

/-! ## Claim C2: warning deduplication -/

/-- Claim C2: for a configured threshold ratio `0 < t ≤ 1`, `shouldWarn`
returns true iff `consumedPoints / limit ≥ t` and the key has no live
suppression entry, in which case it records an entry expiring at
`now + windowDurationMs`; a live entry suppresses without update; an
expired entry is deleted and the call re-evaluates as if it were absent;
threshold 0 disables warnings entirely. -/
theorem C2_shouldWarn_spec :
    (∀ (t : ℚ) (now : ℕ) (key : String)
       (consumedPoints limit windowDurationMs : ℕ) (s : WarnMap),
      0 < t → t ≤ 1 → 0 < limit → (s.map Prod.fst).Nodup →
      ((shouldWarn t now key consumedPoints limit windowDurationMs s).1 = true ↔
        (t ≤ (consumedPoints : ℚ) / (limit : ℚ) ∧ hasLiveEntry now key s = false)) ∧
      ((shouldWarn t now key consumedPoints limit windowDurationMs s).1 = true →
        lookupEntry key (shouldWarn t now key consumedPoints limit windowDurationMs s).2 =
          some (now + windowDurationMs)) ∧
      (hasLiveEntry now key s = true →
        shouldWarn t now key consumedPoints limit windowDurationMs s = (false, s)) ∧
      (∀ expiry, lookupEntry key s = some expiry → expiry ≤ now →
        shouldWarn t now key consumedPoints limit windowDurationMs s =
          shouldWarn t now key consumedPoints limit windowDurationMs (eraseEntry key s))) ∧
    (∀ (now : ℕ) (key : String)
       (consumedPoints limit windowDurationMs : ℕ) (s : WarnMap),
      shouldWarn 0 now key consumedPoints limit windowDurationMs s = (false, s)) := by
  constructor
  · intro t now key consumedPoints limit windowDurationMs s ht ht1 hlim hnd
    have ht0 : ¬(t = 0) := ne_of_gt ht
    cases hl : lookupEntry key s with
    | none =>
      have hmem : key ∉ s.map Prod.fst := (lookupEntry_eq_none_iff key s).mp hl
      have hlive := hasLiveEntry_eq_false_of_none now key s hl
      have hsw := shouldWarn_none t now key consumedPoints limit windowDurationMs s ht0 hl
      refine ⟨?_, ?_, ?_, ?_⟩
      · rw [hsw, hlive]
        unfold warnInsert
        by_cases hr : t ≤ (consumedPoints : ℚ) / (limit : ℚ) <;> simp [hr]
      · intro hb
        rw [hsw] at hb ⊢
        unfold warnInsert at hb ⊢
        by_cases hr : t ≤ (consumedPoints : ℚ) / (limit : ℚ)
        · rw [if_pos hr]
          apply lookupEntry_append_self
          by_cases hc : MAX_WARNED_KEYS ≤ s.length
          · simpa [hc] using not_mem_map_tail key s hmem
          · simpa [hc] using hmem
        · rw [if_neg hr] at hb
          simp at hb
      · intro hcontra
        rw [hlive] at hcontra
        simp at hcontra
      · intro expiry hlook
        exact Option.noConfusion hlook
    | some expiry =>
      by_cases hlive : now < expiry
      · have hlv := hasLiveEntry_eq_true_of_live now key s expiry hl hlive
        have hsw := shouldWarn_live t now key consumedPoints limit windowDurationMs
          s expiry ht0 hl hlive
        refine ⟨?_, ?_, fun _ => hsw, ?_⟩
        · rw [hsw, hlv]; simp
        · intro hb; rw [hsw] at hb; simp at hb
        · intro e he hle
          obtain rfl : expiry = e := by injection he
          omega
      · have hlv := hasLiveEntry_eq_false_of_expired now key s expiry hl hlive
        have hmem : key ∉ (eraseEntry key s).map Prod.fst := not_mem_eraseEntry key s hnd
        have hsw := shouldWarn_expired t now key consumedPoints limit windowDurationMs
          s expiry ht0 hl hlive
        refine ⟨?_, ?_, ?_, ?_⟩
        · rw [hsw, hlv]
          unfold warnInsert
          by_cases hr : t ≤ (consumedPoints : ℚ) / (limit : ℚ) <;> simp [hr]
        · intro hb
          rw [hsw] at hb ⊢
          unfold warnInsert at hb ⊢
          by_cases hr : t ≤ (consumedPoints : ℚ) / (limit : ℚ)
          · rw [if_pos hr]
            apply lookupEntry_append_self
            by_cases hc : MAX_WARNED_KEYS ≤ (eraseEntry key s).length
            · simpa [hc] using not_mem_map_tail key _ hmem
            · simpa [hc] using hmem
          · rw [if_neg hr] at hb
            simp at hb
        · intro hcontra
          rw [hlv] at hcontra
          simp at hcontra
        · intro e he hle
          rw [hsw]
          exact (shouldWarn_none t now key consumedPoints limit windowDurationMs
            (eraseEntry key s) ht0 ((lookupEntry_eq_none_iff key _).mpr hmem)).symm
  · intro now key consumedPoints limit windowDurationMs s
    unfold shouldWarn
    rw [if_pos rfl]

/-- Claim C2 (witness): threshold `0.8`, `80/100` consumed, empty map:
a warning fires; with threshold `0` no warning fires. -/
theorem C2_witness :
    (shouldWarn (4/5 : ℚ) 0 "ip:1.2.3.4" 80 100 60000 []).1 = true ∧
    shouldWarn 0 0 "ip:1.2.3.4" 100 100 60000 [] = (false, []) :=
  ⟨((C2_shouldWarn_spec.1 (4/5) 0 "ip:1.2.3.4" 80 100 60000 []
      (by norm_num) (by norm_num) (by norm_num) (by simp)).1).mpr
      ⟨by norm_num, rfl⟩,
   C2_shouldWarn_spec.2 0 "ip:1.2.3.4" 100 100 60000 []⟩

/-! ## Claim C9: bounded suppression map -/

/-- Claim C9: after every call to `shouldWarn` the suppression map holds
at most 10000 entries, and when an insertion would exceed the cap the
single oldest entry (by insertion order, i.e. the head of the
insertion-ordered map) is evicted first. -/
theorem C9_warnedKeys_bounded :
    ∀ (t : ℚ) (now : ℕ) (key : String)
      (consumedPoints limit windowDurationMs : ℕ) (s : WarnMap),
      s.length ≤ MAX_WARNED_KEYS →
      ((shouldWarn t now key consumedPoints limit windowDurationMs s).2.length ≤
        MAX_WARNED_KEYS ∧
       ((shouldWarn t now key consumedPoints limit windowDurationMs s).1 = true →
         MAX_WARNED_KEYS ≤ (cleanupEntry now key s).length →
         (shouldWarn t now key consumedPoints limit windowDurationMs s).2 =
           (cleanupEntry now key s).tail ++ [(key, now + windowDurationMs)])) := by
  intro t now key consumedPoints limit windowDurationMs s hlen
  by_cases ht0 : t = 0
  · subst ht0
    have hsw : shouldWarn 0 now key consumedPoints limit windowDurationMs s = (false, s) := by
      unfold shouldWarn; rw [if_pos rfl]
    rw [hsw]
    exact ⟨hlen, by intro hb; simp at hb⟩
  cases hl : lookupEntry key s with
  | none =>
    have hclean := cleanupEntry_none now key s hl
    have hsw := shouldWarn_none t now key consumedPoints limit windowDurationMs s ht0 hl
    rw [hsw, hclean]
    exact warnInsert_spec t now key consumedPoints limit windowDurationMs s hlen
  | some expiry =>
    by_cases hlive : now < expiry
    · have hsw := shouldWarn_live t now key consumedPoints limit windowDurationMs
        s expiry ht0 hl hlive
      rw [hsw]
      exact ⟨hlen, by intro hb; simp at hb⟩
    · have hclean := cleanupEntry_expired now key s expiry hl hlive
      have hsw := shouldWarn_expired t now key consumedPoints limit windowDurationMs
        s expiry ht0 hl hlive
      rw [hsw, hclean]
      exact warnInsert_spec t now key consumedPoints limit windowDurationMs _
        (le_trans (eraseEntry_length_le key s) hlen)

/-- Claim C9 (witness): the bound applied to the empty map. -/
theorem C9_witness :
    (shouldWarn (4/5 : ℚ) 0 "ip:9.9.9.9" 90 100 60000 []).2.length ≤ MAX_WARNED_KEYS :=
  (C9_warnedKeys_bounded (4/5) 0 "ip:9.9.9.9" 90 100 60000 [] (by simp [MAX_WARNED_KEYS])).1

/-! ## Claim C3: the event recorder -/

theorem recordSeq_spec (n : ℕ) :
    (recordSeq n).buf = ((List.range n).map seqEvent).drop (n - EVENT_CAPACITY) ∧
    (recordSeq n).total = n ∧ (recordSeq n).nextId = n + 1 := by
  induction n with
  | zero => exact ⟨rfl, rfl, rfl⟩
  | succ n ih =>
    obtain ⟨hbuf, htot, hnext⟩ := ih
    have hC : EVENT_CAPACITY = 100 := rfl
    have hlen : ((List.range n).map seqEvent).length = n := by simp
    have hblen : (recordSeq n).buf.length = n - (n - EVENT_CAPACITY) := by
      rw [hbuf, List.length_drop, hlen]
    have hev : (⟨(recordSeq n).nextId, n, "ip:" ++ toString n⟩ : REvent) = seqEvent n := by
      rw [hnext]; rfl
    refine ⟨?_, ?_, ?_⟩
    · show (recordEvent n ("ip:" ++ toString n) (recordSeq n)).buf = _
      unfold recordEvent
      dsimp only
      rw [hev]
      by_cases hcase : EVENT_CAPACITY ≤ (recordSeq n).buf.length
      · rw [if_pos hcase, hbuf, List.tail_drop]
        have hn : 100 ≤ n := by rw [hblen, hC] at hcase; omega
        rw [List.range_succ, List.map_append]
        dsimp only [List.map]
        rw [List.drop_append_of_le_length (by rw [hlen, hC]; omega)]
        have harg : n - EVENT_CAPACITY + 1 = n + 1 - EVENT_CAPACITY := by
          rw [hC]; omega
        rw [harg]
      · rw [if_neg hcase, hbuf]
        have hn : n < 100 := by rw [hblen, hC] at hcase; omega
        have h0 : n - EVENT_CAPACITY = 0 := by rw [hC]; omega
        have h0' : n + 1 - EVENT_CAPACITY = 0 := by rw [hC]; omega
        rw [h0, h0', List.drop_zero, List.drop_zero, List.range_succ, List.map_append]
        rfl
    · show (recordEvent n ("ip:" ++ toString n) (recordSeq n)).total = n + 1
      unfold recordEvent
      dsimp only
      rw [htot]
    · show (recordEvent n ("ip:" ++ toString n) (recordSeq n)).nextId = n + 1 + 1
      unfold recordEvent
      dsimp only
      rw [hnext]

set_option maxRecDepth 100000 in
/-- Claim C3: each recorded event gets the next monotonically increasing
id and the record-time timestamp; `total` counts every event ever
recorded; the query returns at most capacity (100) most-recent events
newest-first; recording 110 events leaves `total = 110` and exactly the
100 newest events (ids 110 down to 11, the oldest 10 evicted). -/
theorem C3_eventRecorder :
    (∀ (now : ℕ) (key : String) (s : EventBuffer),
      (recordEvent now key s).total = s.total + 1 ∧
      (recordEvent now key s).nextId = s.nextId + 1 ∧
      (recordEvent now key s).buf.getLast? = some ⟨s.nextId, now, key⟩) ∧
    (∀ n : ℕ,
      (getRecentEvents (recordSeq n)).total = n ∧
      (getRecentEvents (recordSeq n)).events.length = min n EVENT_CAPACITY ∧
      (getRecentEvents (recordSeq n)).events =
        (((List.range n).map seqEvent).drop (n - EVENT_CAPACITY)).reverse) ∧
    ((getRecentEvents (recordSeq 110)).total = 110 ∧
      (getRecentEvents (recordSeq 110)).events.length = 100 ∧
      (getRecentEvents (recordSeq 110)).events.map REvent.id =
        (List.range' 11 100).reverse ∧
      (getRecentEvents (recordSeq 110)).events.head? = some ⟨110, 109, "ip:109"⟩ ∧
      (getRecentEvents (recordSeq 110)).events.getLast? = some ⟨11, 10, "ip:10"⟩ ∧
      List.Pairwise (fun a b => b.id < a.id) (getRecentEvents (recordSeq 110)).events) := by
  refine ⟨?_, ?_, ?_⟩
  · intro now key s
    refine ⟨rfl, rfl, ?_⟩
    unfold recordEvent
    dsimp only
    split <;> rw [List.getLast?_concat]
  · intro n
    obtain ⟨hbuf, htot, hnext⟩ := recordSeq_spec n
    have hC : EVENT_CAPACITY = 100 := rfl
    have hlen : ((List.range n).map seqEvent).length = n := by simp
    refine ⟨htot, ?_, ?_⟩
    · show (recordSeq n).buf.reverse.length = min n EVENT_CAPACITY
      rw [List.length_reverse, hbuf, List.length_drop, hlen, hC]
      omega
    · show (recordSeq n).buf.reverse = _
      rw [hbuf]
  · decide

/-! ## Claim C10: non-API paths pass untouched -/

/-- Claim C10: a request whose normalized path neither starts with
`/api/` nor equals `/graphql` passes through with no consumption, no
headers, no events and no status/body change, regardless of the rest of
the environment. -/
theorem C10_path_filter :
    ∀ env : MwEnv,
      jsStartsWith (normalizePath env.path) "/api/" = false →
      normalizePath env.path ≠ "/graphql" →
      globalRateLimit env =
        { status := 200, body := none, headers := [], nextCalled := true,
          loggedError := false, events := [], consumedKeys := [] } := by
  intro env h1 h2
  unfold globalRateLimit mwTry
  rw [if_pos ⟨by simp [h1], h2⟩]
  rfl

/-- Claim C10 (witness): an admin-panel path is passed through
untouched. -/
theorem C10_witness :
    globalRateLimit
      ⟨"/admin/settings", true, Except.ok false, [], "1.2.3.4",
        Except.ok ⟨0, 100, 60000⟩, BackendOutcome.ok ⟨99, 60000, 1⟩,
        Except.ok false, Except.ok (), 0⟩ =
      { status := 200, body := none, headers := [], nextCalled := true,
        loggedError := false, events := [], consumedKeys := [] } :=
  C10_path_filter _ (by decide) (by decide)

/-! ## Claim C1: fail-open on backend errors and exceptions -/

/-- Claim C1: a backend error that is not a quota-exceeded rejection is
converted by `consume` into `allowed = true` with a null result (and
logged); the middleware then calls `next()` with no rate-limit headers;
and any exception thrown in the per-request steps is caught, logged and
results in the request passing. -/
theorem C1_fail_open :
    (∀ (msg : String) (limit : ℕ),
      consume (.err msg) limit = (⟨true, none, 0⟩, true)) ∧
    (∀ env : MwEnv, (∃ msg, env.backend = .err msg) →
      (globalRateLimit env).nextCalled = true ∧ (globalRateLimit env).headers = []) ∧
    (∀ env : MwEnv, (mwTry env).1 ≠ none →
      (globalRateLimit env).nextCalled = true ∧
      (globalRateLimit env).loggedError = true) := by
  refine ⟨fun _ _ => rfl, ?_, ?_⟩
  · rintro ⟨path, enabled, isExc, allowIps, ip, resolveR, backend, warn, recordOk, now⟩
      ⟨msg, hb⟩
    obtain rfl : backend = BackendOutcome.err msg := hb
    by_cases h1 : jsStartsWith (normalizePath path) "/api/" = false ∧
        ¬normalizePath path = "/graphql"
    · constructor <;> simp [globalRateLimit, mwTry, h1, callNext]
    · by_cases h2 : enabled = false
      · constructor <;> simp [globalRateLimit, mwTry, h1, h2, callNext]
      · cases isExc with
        | error e =>
          constructor <;> simp [globalRateLimit, mwTry, h1, h2, callNext]
        | ok b =>
          cases b with
          | true =>
            constructor <;> simp [globalRateLimit, mwTry, h1, h2, callNext]
          | false =>
            by_cases h3 : ip ∈ allowIps
            · constructor <;> simp [globalRateLimit, mwTry, h1, h2, h3, callNext]
            · cases resolveR with
              | error e =>
                constructor <;> simp [globalRateLimit, mwTry, h1, h2, h3, callNext]
              | ok r =>
                constructor <;>
                  simp [globalRateLimit, mwTry, h1, h2, h3, callNext, consume]
  · intro env hmt
    cases hres : mwTry env with
    | mk fst snd =>
      cases fst with
      | none => rw [hres] at hmt; simp at hmt
      | some msg =>
        unfold globalRateLimit
        rw [hres]
        exact ⟨rfl, rfl⟩

/-- Claim C1 (witness): a storage error on an `/api/` request passes the
request with no headers; a thrown exclusion check is caught and logged. -/
theorem C1_witness :
    consume (.err "boom") 100 = (⟨true, none, 0⟩, true) ∧
    (globalRateLimit
      ⟨"/api/articles", true, Except.ok false, [], "9.9.9.9",
        Except.ok ⟨0, 100, 60000⟩, BackendOutcome.err "boom",
        Except.ok false, Except.ok (), 0⟩).nextCalled = true ∧
    (globalRateLimit
      ⟨"/api/articles", true, Except.error "exc", [], "9.9.9.9",
        Except.ok ⟨0, 100, 60000⟩, BackendOutcome.ok ⟨99, 60000, 1⟩,
        Except.ok false, Except.ok (), 0⟩).loggedError = true :=
  ⟨C1_fail_open.1 "boom" 100,
   (C1_fail_open.2.1 _ ⟨"boom", rfl⟩).1,
   (C1_fail_open.2.2 _ (by decide)).2⟩

/-! ## Claim C7: the 429 rejection response -/

/-- Claim C7: whenever the consume result is a quota-exceeded rejection,
the middleware responds 429 with exactly the frozen error body, sets
`X-RateLimit-Remaining` to `"0"` and sets `Retry-After` to a strictly
positive number of seconds. -/
theorem C7_reject_response :
    ∀ (env : MwEnv) (r : RateLimiterRes) (rr : Resolved),
      env.backend = .reject r →
      (jsStartsWith (normalizePath env.path) "/api/" = true ∨
        normalizePath env.path = "/graphql") →
      env.enabled = true →
      env.isExcluded = .ok false →
      env.allowIps.contains env.ip = false →
      env.resolveR = .ok rr →
      (globalRateLimit env).status = 429 ∧
      (globalRateLimit env).body = some TOO_MANY_REQUESTS_BODY ∧
      ("X-RateLimit-Remaining", "0") ∈ (globalRateLimit env).headers ∧
      ("Retry-After", toString (retryAfterSec r.msBeforeNext)) ∈
        (globalRateLimit env).headers ∧
      0 < retryAfterSec r.msBeforeNext := by
  intro env r rr hb hpath hen hexc hallow hres
  have hcond : ¬(jsStartsWith (normalizePath env.path) "/api/" = false ∧
      ¬normalizePath env.path = "/graphql") := by
    rintro ⟨h1, h2⟩
    rcases hpath with h | h
    · rw [h] at h1; exact absurd h1 (by decide)
    · exact h2 h
  have hallow' : ¬env.ip ∈ env.allowIps := by simpa using hallow
  have hpos : 0 < retryAfterSec r.msBeforeNext := by
    dsimp only [retryAfterSec]
    split <;> omega
  cases hrec : env.recordOk with
  | error e =>
    refine ⟨?_, ?_, ?_, ?_, hpos⟩ <;>
      simp [globalRateLimit, mwTry, hb, hen, hexc, hres, hrec, hcond, hallow',
        consume, callNext]
  | ok u =>
    refine ⟨?_, ?_, ?_, ?_, hpos⟩ <;>
      simp [globalRateLimit, mwTry, hb, hen, hexc, hres, hrec, hcond, hallow',
        consume, callNext]

/-- Claim C7 (witness): a rejected sixth request on a limit-5 quota gets
429, the frozen body, remaining `"0"` and `Retry-After` of 30 seconds. -/
theorem C7_witness :
    (globalRateLimit
      ⟨"/api/articles", true, Except.ok false, [], "1.2.3.4",
        Except.ok ⟨0, 5, 60000⟩, BackendOutcome.reject ⟨0, 30000, 6⟩,
        Except.ok false, Except.ok (), 0⟩).status = 429 ∧
    (globalRateLimit
      ⟨"/api/articles", true, Except.ok false, [], "1.2.3.4",
        Except.ok ⟨0, 5, 60000⟩, BackendOutcome.reject ⟨0, 30000, 6⟩,
        Except.ok false, Except.ok (), 0⟩).body = some TOO_MANY_REQUESTS_BODY ∧
    ("X-RateLimit-Remaining", "0") ∈
      (globalRateLimit
        ⟨"/api/articles", true, Except.ok false, [], "1.2.3.4",
          Except.ok ⟨0, 5, 60000⟩, BackendOutcome.reject ⟨0, 30000, 6⟩,
          Except.ok false, Except.ok (), 0⟩).headers ∧
    0 < retryAfterSec 30000 := by
  have h := C7_reject_response
    ⟨"/api/articles", true, Except.ok false, [], "1.2.3.4",
      Except.ok ⟨0, 5, 60000⟩, BackendOutcome.reject ⟨0, 30000, 6⟩,
      Except.ok false, Except.ok (), 0⟩
    ⟨0, 30000, 6⟩ ⟨0, 5, 60000⟩ rfl (Or.inl (by decide)) rfl rfl rfl rfl
  exact ⟨h.1, h.2.1, h.2.2.1, h.2.2.2.2⟩

/-! ## Claim C6: client identity resolution -/

/-- Claim C6: `resolveClientKey` returns `token:<id>` for an API-token
principal with an id, else `user:<id>` for a users-permissions principal
with a user id, else `ip:<clientIp>`, where the client IP comes from the
`CF-Connecting-IP` header only when the cloudflare flag is enabled and
the header is non-empty, falling back to the transport-layer peer
address; ids are coerced to string form. -/
theorem C6_resolveClientKey_spec :
    (∀ (ctx : KoaCtx) (cf : Bool) (a : AuthState) (v : JsVal),
      ctx.auth = some a → a.strategyName = "api-token" → a.credentialsId = some v →
      v.truthy = true → resolveClientKey ctx cf = "token:" ++ v.jsString) ∧
    (∀ (ctx : KoaCtx) (cf : Bool) (a : AuthState) (v : JsVal),
      ctx.auth = some a → a.strategyName = "users-permissions" → ctx.userId = some v →
      v.truthy = true → resolveClientKey ctx cf = "user:" ++ v.jsString) ∧
    (∀ (ctx : KoaCtx) (cf : Bool),
      apiTokenId ctx = none → upUserId ctx = none →
      resolveClientKey ctx cf = "ip:" ++ resolveClientIp ctx cf) ∧
    (∀ ctx : KoaCtx, ctx.cfConnectingIp ≠ "" →
      resolveClientIp ctx true = ctx.cfConnectingIp) ∧
    (∀ ctx : KoaCtx, resolveClientIp ctx false = ctx.requestIp) ∧
    (∀ ctx : KoaCtx, ctx.cfConnectingIp = "" →
      resolveClientIp ctx true = ctx.requestIp) := by
  refine ⟨?_, ?_, ?_, ?_, ?_, ?_⟩
  · intro ctx cf a v hauth hstrat hcred htr
    have htok : apiTokenId ctx = some v := by
      unfold apiTokenId
      rw [hauth]
      dsimp only
      rw [if_pos hstrat, hcred]
      dsimp only
      rw [if_pos htr]
    unfold resolveClientKey
    rw [htok]
  · intro ctx cf a v hauth hstrat huser htr
    have htok : apiTokenId ctx = none := by
      unfold apiTokenId
      rw [hauth]
      dsimp only
      rw [if_neg (by rw [hstrat]; decide)]
    have hup : upUserId ctx = some v := by
      unfold upUserId
      rw [hauth]
      dsimp only
      rw [if_pos hstrat, huser]
      dsimp only
      rw [if_pos htr]
    unfold resolveClientKey
    rw [htok, hup]
  · intro ctx cf htok hup
    unfold resolveClientKey
    rw [htok, hup]
  · intro ctx h
    unfold resolveClientIp
    rw [if_pos rfl, if_pos h]
  · intro ctx
    rfl
  · intro ctx h
    unfold resolveClientIp
    rw [if_pos rfl, if_neg (by simp [h])]

/-- Claim C6 (witness): the three identity tiers and the proxy-header
rule at concrete requests. -/
theorem C6_witness :
    resolveClientKey ⟨some ⟨"api-token", some (.num 42)⟩, none, "1.1.1.1", ""⟩ false =
      "token:" ++ (JsVal.num 42).jsString ∧
    resolveClientKey ⟨some ⟨"users-permissions", some (.num 7)⟩, some (.num 99),
      "1.1.1.1", ""⟩ false = "user:" ++ (JsVal.num 99).jsString ∧
    resolveClientKey ⟨none, none, "10.0.0.1", ""⟩ false =
      "ip:" ++ resolveClientIp ⟨none, none, "10.0.0.1", ""⟩ false ∧
    resolveClientIp ⟨none, none, "127.0.0.1", "1.2.3.4"⟩ true = "1.2.3.4" ∧
    resolveClientIp ⟨none, none, "127.0.0.1", "1.2.3.4"⟩ false = "127.0.0.1" :=
  ⟨C6_resolveClientKey_spec.1 _ false ⟨"api-token", some (.num 42)⟩ (.num 42)
      rfl rfl rfl (by decide),
   C6_resolveClientKey_spec.2.1 _ false ⟨"users-permissions", some (.num 7)⟩ (.num 99)
      rfl rfl rfl (by decide),
   C6_resolveClientKey_spec.2.2.1 _ false rfl rfl,
   C6_resolveClientKey_spec.2.2.2.1 _ (by decide),
   C6_resolveClientKey_spec.2.2.2.2.1 _⟩

end StrapiRateLimit
